import Mathlib

/-!
Verification of the crawl / extract / reconcile core of a California Code of
Regulations ingestion pipeline: URL discovery, section extraction, the
failure-ledger retry pass, and coverage reconciliation.  Every definition is a
shallow embedding of the corresponding Python function of the repository;
network fetches and JSON parsing are passed in as explicit oracles, and
wall-clock timestamps (`retrieved_at`, `failed_at`, `last_updated`) are outside
the functional model.
-/

namespace CCR

/-! ### Python truthiness helpers -/

/-- Python truthiness of an optional integer (`if n:`): `None` and `0` are falsy. -/
def pyTruthyNat : Option Nat → Bool
  | none => false
  | some n => n != 0

/-- Python truthiness of an optional string (`if s:`): `None` and `""` are falsy. -/
def pyTruthyStr : Option String → Bool
  | none => false
  | some s => !s.isEmpty

/-! ### Coverage tracker (`src/coverage_tracker.py`) -/

/-- The dictionary returned by `CoverageTracker.calculate_coverage`. -/
structure CoverageStats (α : Type) where
  total_discovered : Nat
  total_extracted : Nat
  total_failed : Nat
  total_missing : Nat
  coverage_percentage : ℚ
  missing_urls : Finset α

/-- `CoverageTracker.calculate_coverage`, a pure function of the loaded
discovered set, extracted set and failure ledger (the failure ledger enters
only through its number of entries).  Elements are kept abstract: the Python
code uses only set operations on the URL strings. -/
def calculate_coverage {α : Type} [DecidableEq α]
    (discovered extracted failed : Finset α) : CoverageStats α :=
  let missing := discovered \ extracted
  { total_discovered := discovered.card
    total_extracted := extracted.card
    total_failed := failed.card
    total_missing := missing.card
    coverage_percentage :=
      if discovered.card > 0 then (extracted.card : ℚ) / (discovered.card : ℚ) * 100 else 0
    missing_urls := missing }

/-- The coverage tiers of `CoverageTracker.generate_report`. -/
inductive Tier where
  | excellent
  | good
  | acceptable
  | insufficient
deriving DecidableEq

/-- The tier chosen by the `if coverage_percentage >= 95 / >= 90 / >= 80 / else`
chain in `CoverageTracker.generate_report`. -/
def coverageTier (pct : ℚ) : Tier :=
  if 95 ≤ pct then .excellent
  else if 90 ≤ pct then .good
  else if 80 ≤ pct then .acceptable
  else .insufficient

/-- The coverage formula exactly as the specification words it:
`coverage% = |extracted| / max(|discovered|, 1) × 100`.  Stated from the spec
for comparison against `calculate_coverage` (which the source defines with an
`if total_discovered > 0` guard instead). -/
def coverageSpecFormula (d e : Nat) : ℚ :=
  (e : ℚ) / (max d 1 : ℚ) * 100

/-! ### Pipeline record types (`src/models.py`) -/

/-- A Python exception, by class name and message. -/
structure PyErr where
  etype : String
  emsg : String
deriving DecidableEq

/-- `models.FailedURL` (pydantic).  The wall-clock `failed_at` timestamp is
outside the functional model. -/
structure FailedURL where
  url : String
  error_type : String
  error_message : String
  retry_count : Nat
deriving DecidableEq

/-! ### Character and string helpers -/

/-- ASCII and Latin-1 lowercasing, modelling `str.lower` / `re.IGNORECASE` on
the character ranges occurring in this pipeline. -/
def lowerChar (c : Char) : Char :=
  if 65 ≤ c.toNat ∧ c.toNat ≤ 90 then Char.ofNat (c.toNat + 32)
  else if 0xC0 ≤ c.toNat ∧ c.toNat ≤ 0xDE ∧ c.toNat ≠ 0xD7 then Char.ofNat (c.toNat + 32)
  else c

/-- `\s` of the `re` module (ASCII range). -/
def isSpaceChar (c : Char) : Bool :=
  c = ' ' || c = '\t' || c = '\n' || c = '\r' || c = Char.ofNat 11 || c = Char.ofNat 12

/-- Word characters for `\b` word boundaries (`[A-Za-z0-9_]`; the texts this
development evaluates contain no non-ASCII letters). -/
def isWordChar (c : Char) : Bool := c.isAlphanum || c = '_'

/-- Maximal leading run of ASCII digits, with the remainder. -/
def takeDigits (cs : List Char) : List Char × List Char :=
  (cs.takeWhile Char.isDigit, cs.dropWhile Char.isDigit)

/-- `int()` on a digit string. -/
def digitsToNat (ds : List Char) : Nat :=
  ds.foldl (fun n c => n * 10 + (c.toNat - 48)) 0

/-- Python `str.strip()` (ASCII whitespace). -/
def pyStrip (s : String) : String :=
  String.mk ((s.toList.dropWhile isSpaceChar).reverse.dropWhile isSpaceChar).reverse

/-- Python substring containment `sub in hay`. -/
def containsSub : List Char → List Char → Bool
  | [], sub => sub.isEmpty
  | c :: t, sub => sub.isPrefixOf (c :: t) || containsSub t sub

/-- Python `sub in s` on strings. -/
def strContains (s sub : String) : Bool := containsSub s.toList sub.toList

/-- Python `s.lower()`. -/
def strLower (s : String) : String := String.mk (s.toList.map lowerChar)

/-- Python `str.split(sep)` for a one-character separator. -/
def splitOnChar (sep : Char) : List Char → List (List Char)
  | [] => [[]]
  | c :: t =>
    let r := splitOnChar sep t
    if c = sep then [] :: r
    else
      match r with
      | h :: t2 => (c :: h) :: t2
      | [] => [[c]]

/-! ### Regex matchers of `SectionExtractor` (`src/crawler/section_extractor.py`)

Each Python pattern is embedded as a matcher that tries one start position
(given the previous character, for word boundaries) and a leftmost search over
all start positions, reproducing `re.search`. -/

/-- Greedy match of `\d+(?:\.\d+)?` at the head of the input; returns the
matched characters and the remainder. -/
def numAt (cs : List Char) : Option (List Char × List Char) :=
  let ds := cs.takeWhile Char.isDigit
  let rest := cs.dropWhile Char.isDigit
  if ds.isEmpty then none
  else
    match rest with
    | '.' :: r =>
      let fs := r.takeWhile Char.isDigit
      let rest2 := r.dropWhile Char.isDigit
      if fs.isEmpty then some (ds, rest) else some (ds ++ '.' :: fs, rest2)
    | _ => some (ds, rest)

/-- Case-insensitive literal prefix match; returns the remainder. -/
def matchLitCI : List Char → List Char → Option (List Char)
  | [], cs => some cs
  | _ :: _, [] => none
  | p :: ps, c :: cs => if lowerChar c = lowerChar p then matchLitCI ps cs else none

/-- The literal section-marker characters of the source pattern
`Â§\s*(\d+(?:\.\d+)?)`: the source file carries a double-encoded section sign,
U+00C2 followed by U+00A7. -/
def sectMarker : List Char := [Char.ofNat 0xC2, Char.ofNat 0xA7]

/-- Try the explicit section-marker pattern at one position. -/
def tryMarker (_prev : Option Char) (cs : List Char) : Option (List Char) :=
  match matchLitCI sectMarker cs with
  | none => none
  | some r1 =>
    match numAt (r1.dropWhile isSpaceChar) with
    | none => none
    | some (g, _) => some g

/-- Try `Section\s+(\d+(?:\.\d+)?)` (IGNORECASE) at one position. -/
def trySectionWord (_prev : Option Char) (cs : List Char) : Option (List Char) :=
  match matchLitCI "section".toList cs with
  | none => none
  | some [] => none
  | some (c :: r2) =>
    if isSpaceChar c then
      match numAt (r2.dropWhile isSpaceChar) with
      | none => none
      | some (g, _) => some g
    else none

/-- Try `sec\.\s*(\d+(?:\.\d+)?)` (IGNORECASE) at one position. -/
def trySecDot (_prev : Option Char) (cs : List Char) : Option (List Char) :=
  match matchLitCI "sec.".toList cs with
  | none => none
  | some r1 =>
    match numAt (r1.dropWhile isSpaceChar) with
    | none => none
    | some (g, _) => some g

/-- Is the next character (if any) outside the word class?  Used for the
trailing `\b`. -/
def nonWordNext : List Char → Bool
  | [] => true
  | c :: _ => !isWordChar c

/-- Try `\b(\d{3,}(?:\.\d+)?)\b` at one position, with the backtracking
behaviour of the Python engine: the optional fraction is dropped whenever the
trailing word boundary would fail after it. -/
def tryBare (prev : Option Char) (cs : List Char) : Option (List Char) :=
  if prev.all (fun c => !isWordChar c) then
    let ds := cs.takeWhile Char.isDigit
    let rest := cs.dropWhile Char.isDigit
    if 3 ≤ ds.length then
      match rest with
      | '.' :: r =>
        let fs := r.takeWhile Char.isDigit
        let rest2 := r.dropWhile Char.isDigit
        if !fs.isEmpty && nonWordNext rest2 then some (ds ++ '.' :: fs) else some ds
      | _ => if nonWordNext rest then some ds else none
    else none
  else none

/-- Leftmost-match search, as `re.search`: try each start position from the
left, tracking the previous character for word boundaries. -/
def reSearch (tryAt : Option Char → List Char → Option (List Char)) :
    Option Char → List Char → Option (List Char)
  | prev, [] => tryAt prev []
  | prev, c :: rest =>
    match tryAt prev (c :: rest) with
    | some g => some g
    | none => reSearch tryAt (some c) rest

/-- `SectionExtractor.extract_section_number`: `if not text` truthiness guard,
then the ordered pattern chain; the first pattern whose search succeeds wins. -/
def extract_section_number (text : String) : Option String :=
  if text.isEmpty then none
  else
    let cs := text.toList
    match reSearch tryMarker none cs with
    | some g => some (String.mk g)
    | none =>
      match reSearch trySectionWord none cs with
      | some g => some (String.mk g)
      | none =>
        match reSearch trySecDot none cs with
        | some g => some (String.mk g)
        | none => (reSearch tryBare none cs).map String.mk

/-- Does the input start with `/` or `?` (the trailing `[/?]` class)? -/
def isSlashQ : List Char → Bool
  | '/' :: _ => true
  | '?' :: _ => true
  | _ => false

/-- Try `[/\-](\d{4,}(?:\.\d+)?)[/?]` at one position (group 1 only), with the
backtracking behaviour of the Python engine. -/
def tryUrlNum (_prev : Option Char) (cs : List Char) : Option (List Char) :=
  match cs with
  | c :: r =>
    if c = '/' || c = '-' then
      let ds := r.takeWhile Char.isDigit
      let rest := r.dropWhile Char.isDigit
      if 4 ≤ ds.length then
        match rest with
        | '.' :: r2 =>
          let fs := r2.takeWhile Char.isDigit
          let rest2 := r2.dropWhile Char.isDigit
          if !fs.isEmpty && isSlashQ rest2 then some (ds ++ '.' :: fs) else none
        | _ => if isSlashQ rest then some ds else none
      else none
    else none
  | [] => none

/-- `SectionExtractor.extract_section_number_from_url`. -/
def extract_section_number_from_url (url : String) : Option String :=
  (reSearch tryUrlNum none url.toList).map String.mk

/-- Try `Title\s+(\d+)` (IGNORECASE) at one position. -/
def tryTitle (_prev : Option Char) (cs : List Char) : Option (List Char) :=
  match matchLitCI "title".toList cs with
  | none => none
  | some [] => none
  | some (c :: r2) =>
    if isSpaceChar c then
      let ds := (r2.dropWhile isSpaceChar).takeWhile Char.isDigit
      if ds.isEmpty then none else some ds
    else none

/-- `SectionExtractor.extract_title_number`: `int(match.group(1))`. -/
def extract_title_number (text : String) : Option Nat :=
  (reSearch tryTitle none text.toList).map digitsToNat

/-- `models.CCRSection` (pydantic).  The wall-clock `retrieved_at` timestamp is
outside the functional model. -/
structure CCRSection where
  title_number : Option Nat
  title_name : Option String
  division : Option String
  chapter : Option String
  subchapter : Option String
  article : Option String
  section_number : String
  section_heading : String
  citation : String
  breadcrumb_path : String
  source_url : String
  content_markdown : String
deriving DecidableEq

/-! ### Section extraction (`src/crawler/section_extractor.py`) -/

/-- The data `extract_section` draws from a fetched page, with the
BeautifulSoup HTML parsing and markdownify conversion pre-applied: the text of
the heading tag found (if any), the text of the breadcrumb element found
(if any), and the markdown conversion of the content container. -/
structure Page where
  headingText : Option String
  breadcrumbText : Option String
  contentMarkdown : String
deriving DecidableEq

/-- The hierarchy metadata built by `SectionExtractor.parse_breadcrumb`. -/
structure Breadcrumb where
  title_number : Option Nat
  title_name : Option String
  division : Option String
  chapter : Option String
  subchapter : Option String
  article : Option String
  breadcrumb_path : String
deriving DecidableEq

/-- One step of the part-classification loop in `parse_breadcrumb` (the
`elif` chain over `part.lower()`). -/
def classifyPart (m : Breadcrumb) (part : String) : Breadcrumb :=
  let low := strLower part
  if strContains low "title" then { m with title_name := some part }
  else if strContains low "division" then { m with division := some part }
  else if strContains low "chapter" then { m with chapter := some part }
  else if strContains low "article" then { m with article := some part }
  else if strContains low "subchapter" then { m with subchapter := some part }
  else m

/-- `SectionExtractor.parse_breadcrumb`, taking the text of the breadcrumb
element when one is present.  The `if title_num:` truthiness guard keeps
`title_number = None` when the parsed number is 0. -/
def parse_breadcrumb (breadcrumbText : Option String) : Breadcrumb :=
  match breadcrumbText with
  | none => ⟨none, none, none, none, none, none, ""⟩
  | some bt =>
    let base : Breadcrumb := ⟨none, none, none, none, none, none, bt⟩
    let tn := extract_title_number bt
    let base := if pyTruthyNat tn then { base with title_number := tn } else base
    let parts := (splitOnChar '>' bt.toList).map (fun p => pyStrip (String.mk p))
    parts.foldl classifyPart base

/-- `SectionExtractor.extract_section_content`:
`(section_number, section_heading, content_markdown)`. -/
def extract_section_content (pg : Page) : Option String × String × String :=
  match pg.headingText with
  | some h => (extract_section_number h, h, pg.contentMarkdown)
  | none => (none, "Unknown", pg.contentMarkdown)

/-- The `CCR Â§` infix of the source citation strings (e.g. `17 CCR Â§ 1234`);
the source file carries a double-encoded section sign. -/
def citMarker : String := String.mk sectMarker

/-- `SectionExtractor.build_citation`.  The
`if title_number and section_number` guards are Python truthiness tests. -/
def build_citation (title_number : Option Nat) (section_number : Option String) : String :=
  if pyTruthyNat title_number && pyTruthyStr section_number then
    toString (title_number.getD 0) ++ " CCR " ++ citMarker ++ " " ++ section_number.getD ""
  else if pyTruthyStr section_number then
    "CCR " ++ citMarker ++ " " ++ section_number.getD ""
  else
    "CCR (unknown section)"

/-- The section-number fallback chain of `SectionExtractor.extract_section`:
heading patterns, then URL digits, then breadcrumb-trail patterns, then the
literal `"unknown"`.  The `if not section_number:` guards are truthiness
tests. -/
def derive_section_number (headingNum : Option String) (url : String)
    (breadcrumbPath : String) : String :=
  let sn1 := if pyTruthyStr headingNum then headingNum else extract_section_number_from_url url
  let sn2 := if pyTruthyStr sn1 then sn1 else extract_section_number breadcrumbPath
  if pyTruthyStr sn2 then sn2.getD "" else "unknown"

/-- `SectionExtractor.extract_section` on a successfully fetched page. -/
def extract_section (url : String) (pg : Page) : CCRSection :=
  let meta := parse_breadcrumb pg.breadcrumbText
  let (sn0, heading, content) := extract_section_content pg
  let sn := derive_section_number sn0 url meta.breadcrumb_path
  let citation := build_citation meta.title_number (some sn)
  { title_number := meta.title_number
    title_name := meta.title_name
    division := meta.division
    chapter := meta.chapter
    subchapter := meta.subchapter
    article := meta.article
    section_number := sn
    section_heading := heading
    citation := citation
    breadcrumb_path := meta.breadcrumb_path
    source_url := url
    content_markdown := content }

/-! ### Retry/backoff wrapper (the tenacity `@retry` decorator on
`extract_section`) -/

/-- `config.MAX_RETRIES` (default `5`). -/
def MAX_RETRIES : Nat := 5

/-- The tenacity attempt loop `stop_after_attempt(MAX_RETRIES)` with
`reraise=True`: run attempts `i, i+1, ...` until one succeeds or the attempt
budget is exhausted, returning the number of attempts made together with the
first success or, reraised, the last error.  The exponential-backoff waits
between attempts are wall-clock time, outside the functional model. -/
def attemptFrom (f : Nat → Except PyErr Page) (i : Nat) : Nat → Nat × Except PyErr Page
  | 0 => (0, .error ⟨"RetryError", "no attempts"⟩)
  | 1 => (1, f i)
  | n + 2 =>
    match f i with
    | .ok pg => (1, .ok pg)
    | .error _ =>
      let (m, r) := attemptFrom f (i + 1) (n + 1)
      (m + 1, r)

/-- One decorated call `extract_section(url, crawler)`: the number of fetch
attempts it makes internally and its final outcome.  The fetch oracle maps a
URL and an attempt index to that attempt's result. -/
def extractCall (fetch : String → Nat → Except PyErr Page) (url : String) :
    Nat × Except PyErr CCRSection :=
  let (n, r) := attemptFrom (fetch url) 0 MAX_RETRIES
  (n, r.map (extract_section url))

/-! ### Local state files and their loaders -/

/-- The contents of a local state file: missing, unreadable (opening raises
OSError), or readable with the given lines. -/
inductive FileState where
  | missing
  | unreadable
  | lines (ls : List String)

/-- The lines of a file state (none for a missing or unreadable file). -/
def FileState.linesOf : FileState → List String
  | .lines ls => ls
  | _ => []

/-- The scan loop inside `SectionExtractor.load_extracted_urls`: blank lines
are skipped, each parsed line contributes its `source_url` key (`None` when
the key is absent), and a JSON error aborts the scan, keeping the keys
accumulated so far.  The line-parse oracle returns `none` for a line on which
`json.loads` raises. -/
def scanLedger (parseLine : String → Option (Option String)) :
    List String → List (Option String) → List (Option String)
  | [], acc => acc
  | l :: rest, acc =>
    if (pyStrip l).isEmpty then scanLedger parseLine rest acc
    else
      match parseLine l with
      | some key => scanLedger parseLine rest (acc ++ [key])
      | none => acc

/-- The same scan with exceptions propagated instead of caught: what the
`try` block of `load_extracted_urls` would do without its handler. -/
def scanStrict (parseLine : String → Option (Option String)) :
    List String → List (Option String) → Except PyErr (List (Option String))
  | [], acc => .ok acc
  | l :: rest, acc =>
    if (pyStrip l).isEmpty then scanStrict parseLine rest acc
    else
      match parseLine l with
      | some key => scanStrict parseLine rest (acc ++ [key])
      | none => .error ⟨"JSONDecodeError", l⟩

/-- `SectionExtractor.load_extracted_urls`: the already-extracted key set
(modelled as the key list; Python stores the keys in a set and only membership
is ever consulted).  A missing file skips the read via the `exists()` guard;
an unreadable file or malformed JSON line is absorbed by the `except` handler,
keeping whatever was accumulated. -/
def load_extracted_urls (fs : FileState)
    (parseLine : String → Option (Option String)) : List (Option String) :=
  match fs with
  | .missing => []
  | .unreadable => []
  | .lines ls => scanLedger parseLine ls []

/-- `load_extracted_urls` with exceptions propagated instead of caught. -/
def load_extracted_urls_attempt (fs : FileState)
    (parseLine : String → Option (Option String)) :
    Except PyErr (List (Option String)) :=
  match fs with
  | .missing => .ok []
  | .unreadable => .error ⟨"OSError", "cannot open"⟩
  | .lines ls => scanStrict parseLine ls []

/-- `URLDiscoverer.load_checkpoint`: the whole checkpoint file is parsed as
one JSON document (the parse oracle takes the file lines; its outer `none` is
a `json.load` error, the inner option is the presence of the
`discovered_urls` key, defaulted to `[]` by `data.get`).  Any error leaves
the initial empty set. -/
def load_checkpoint (fs : FileState)
    (parseDoc : List String → Option (Option (List String))) : List String :=
  match fs with
  | .missing => []
  | .unreadable => []
  | .lines ls =>
    match parseDoc ls with
    | some d => d.getD []
    | none => []

/-- `load_checkpoint` with exceptions propagated instead of caught. -/
def load_checkpoint_attempt (fs : FileState)
    (parseDoc : List String → Option (Option (List String))) :
    Except PyErr (List String) :=
  match fs with
  | .missing => .ok []
  | .unreadable => .error ⟨"OSError", "cannot open"⟩
  | .lines ls =>
    match parseDoc ls with
    | some d => .ok (d.getD [])
    | none => .error ⟨"JSONDecodeError", "invalid checkpoint"⟩

/-- The fields of `SectionExtractor` set by `__init__`. -/
structure SectionExtractorState where
  extracted_count : Nat
  failed_urls : List FailedURL
  extracted_urls : List (Option String)
deriving DecidableEq

/-- `SectionExtractor.__init__`: always constructs; the extracted-URL key set
is reloaded from the ledger. -/
def SectionExtractor_init (fs : FileState)
    (parseLine : String → Option (Option String)) : SectionExtractorState :=
  ⟨0, [], load_extracted_urls fs parseLine⟩

/-- The fields of `URLDiscoverer` set by `__init__`. -/
structure URLDiscovererState where
  discovered_urls : List String
deriving DecidableEq

/-- `URLDiscoverer.__init__`: always constructs; the discovered set is
reloaded from the checkpoint. -/
def URLDiscoverer_init (fs : FileState)
    (parseDoc : List String → Option (Option (List String))) : URLDiscovererState :=
  ⟨load_checkpoint fs parseDoc⟩

/-! ### The extraction pipeline (`process_discovered_urls`) and the retry pass
(`src/retry_failed_extractions.py`) -/

/-- The record appended to the extracted-sections ledger when the decorated
`extract_section` call on a URL succeeds. -/
def extractOkRec (fetch : String → Nat → Except PyErr Page) (u : String) :
    Option CCRSection :=
  match (extractCall fetch u).2 with
  | .ok sec => some sec
  | .error _ => none

/-- The record written to the failure ledger (with the given `retry_count`)
when the decorated `extract_section` call on a URL raises. -/
def extractFailRec (fetch : String → Nat → Except PyErr Page) (rc : Nat)
    (u : String) : Option FailedURL :=
  match (extractCall fetch u).2 with
  | .error e => some ⟨u, e.etype, e.emsg, rc⟩
  | .ok _ => none

/-- The `urls_to_process` collection loop of `process_discovered_urls`:
discovered URLs whose key is not in the extracted set, stopping once a truthy
`limit` is reached (`if limit and len(urls_to_process) >= limit: break`). -/
def collectUrls (keys : List (Option String)) (limit : Option Nat) :
    List String → Nat → List String
  | [], _ => []
  | u :: rest, count =>
    if (some u) ∈ keys then collectUrls keys limit rest count
    else
      u :: (if pyTruthyNat limit && limit.getD 0 ≤ count + 1 then []
            else collectUrls keys limit rest (count + 1))

/-- The outputs of one run of `process_discovered_urls`: the records appended
to the extracted-sections ledger and the records appended to the failure
ledger.  The bounded-concurrency workers only interleave the append order;
the model lists each outcome in URL order. -/
structure ExtractionRun where
  newRecords : List CCRSection
  newFailed : List FailedURL
deriving DecidableEq

/-- `SectionExtractor.process_discovered_urls`: reload the key set from the
extracted ledger, skip discovered URLs already present, and for each
processed URL either append the extracted section or append a failure record
(whose `retry_count` defaults to 0). -/
def process_discovered_urls (fs : FileState)
    (parseLine : String → Option (Option String))
    (discovered : List String) (limit : Option Nat)
    (fetch : String → Nat → Except PyErr Page) : ExtractionRun :=
  let keys := load_extracted_urls fs parseLine
  let urls := collectUrls keys limit discovered 0
  { newRecords := urls.filterMap (extractOkRec fetch)
    newFailed := urls.filterMap (extractFailRec fetch 0) }

/-- The outputs of one run of `retry_failed_extractions.main`: the records
appended to the extracted ledger, the failure-ledger contents after the final
full rewrite, and the attempt count of the single `extract_section` call made
for each loaded URL. -/
structure RetryRun where
  newRecords : List CCRSection
  stillFailed : List FailedURL
  attemptsPerUrl : List (String × Nat)
deriving DecidableEq

/-- `retry_failed_extractions.main`: load the failure ledger, call
`extract_section` once per loaded URL (the decorated call retries
internally), append successes to the extracted ledger, and rewrite the
failure ledger in full with the still-failing URLs, each written with the
constant `retry_count=1`.  When the loaded ledger is empty the function
returns early and the ledger file is left as it was. -/
def retry_failed_extractions (ledger : List FailedURL)
    (fetch : String → Nat → Except PyErr Page) : RetryRun :=
  let urls := ledger.map (·.url)
  if urls.isEmpty then ⟨[], ledger, []⟩
  else
    { newRecords := urls.filterMap (extractOkRec fetch)
      stillFailed := urls.filterMap (extractFailRec fetch 1)
      attemptsPerUrl := urls.map fun u => (u, (extractCall fetch u).1) }

/-! ### URL normalization (`URLDiscoverer.normalize_url` over
`urllib.parse.urlparse`) -/

/-- Characters allowed in a URL scheme (`urllib.parse.scheme_chars`). -/
def isSchemeChar (c : Char) : Bool :=
  c.isAlpha || c.isDigit || c = '+' || c = '-' || c = '.'

/-- CPython `urlsplit` scheme splitting: the text before the first `:` is the
scheme when it is nonempty, starts with an ASCII letter and consists of
scheme characters only; the scheme is lowercased.  Returns `(scheme, rest)`. -/
def splitScheme (cs : List Char) : List Char × List Char :=
  match cs.findIdx? (· = ':') with
  | some i =>
    if 0 < i ∧ (cs.take i).all isSchemeChar ∧ cs.head?.elim false Char.isAlpha then
      ((cs.take i).map lowerChar, cs.drop (i + 1))
    else ([], cs)
  | none => ([], cs)

/-- Characters ending the netloc (the `urllib.parse._splitnetloc`
delimiters). -/
def isNetlocEnd (c : Char) : Bool := c = '/' || c = '?' || c = '#'

/-- CPython netloc splitting (`url[:2] == '//'` and `_splitnetloc(url, 2)`):
when the remainder starts with `//`, the netloc runs from position 2 to the
next `/`, `?` or `#`.  Returns `(netloc, rest)`. -/
def splitNetloc (cs : List Char) : List Char × List Char :=
  if cs.take 2 = ['/', '/'] then
    ((cs.drop 2).takeWhile (fun c => !isNetlocEnd c),
     (cs.drop 2).dropWhile (fun c => !isNetlocEnd c))
  else ([], cs)

/-- Split at the first occurrence of a character, removing it:
`(before, after)`; when the character is absent, `(everything, [])` — as
`urlsplit` leaves the fragment and the query empty. -/
def splitAtChar (sep : Char) (cs : List Char) : List Char × List Char :=
  (cs.takeWhile (· ≠ sep), (cs.dropWhile (· ≠ sep)).drop 1)

/-- Index of the first occurrence of a character at or after `start`. -/
def findFrom (sep : Char) (cs : List Char) (start : Nat) : Option Nat :=
  ((cs.drop start).findIdx? (· = sep)).map (· + start)

/-- Index of the last occurrence of a character. -/
def rfindIdx (sep : Char) (cs : List Char) : Option Nat :=
  (cs.reverse.findIdx? (· = sep)).map (fun k => cs.length - 1 - k)

/-- `urllib.parse._splitparams` under the `';' in path` guard of `urlparse`:
the `;params` suffix of the last path segment is split off.  Returns
`(path, params)`. -/
def splitParams (cs : List Char) : List Char × List Char :=
  if ';' ∈ cs then
    if '/' ∈ cs then
      match findFrom ';' cs ((rfindIdx '/' cs).getD 0) with
      | some i => (cs.take i, cs.drop (i + 1))
      | none => (cs, [])
    else
      match cs.findIdx? (· = ';') with
      | some i => (cs.take i, cs.drop (i + 1))
      | none => (cs, [])
  else (cs, [])

/-- The components of `urllib.parse.urlparse`. -/
structure UrlParts where
  scheme : List Char
  netloc : List Char
  path : List Char
  params : List Char
  query : List Char
  fragment : List Char
deriving DecidableEq

/-- `urllib.parse.urlparse` component splitting: scheme, then `//`-netloc,
then fragment, then query, then params.  Modelled are the splits common to
CPython versions; the removal of tab/CR/LF bytes and the ValueError on a
malformed bracketed netloc of recent CPython are outside the model (no claim
concerns them). -/
def urlparse (url : String) : UrlParts :=
  let (scheme, r1) := splitScheme url.toList
  let (netloc, r2) := splitNetloc r1
  let (r3, fragment) := splitAtChar '#' r2
  let (path0, query) := splitAtChar '?' r3
  let (path, params) := splitParams path0
  ⟨scheme, netloc, path, params, query, fragment⟩

/-- `URLDiscoverer.normalize_url`: `f"{scheme}://{netloc}{path}"`, plus
`f"?{query}"` when the query is truthy (`urlparse().path` excludes the params
component, and the fragment is never used). -/
def normalize_url (url : String) : String :=
  let p := urlparse url
  String.mk (p.scheme ++ (':' :: '/' :: '/' :: p.netloc) ++ p.path ++
    (if p.query.isEmpty then [] else '?' :: p.query))

/-! ### URL discovery (`URLDiscoverer.discover_all_urls`) -/

/-- `config.CCR_BASE_URL`. -/
def CCR_BASE_URL : String := "https://govt.westlaw.com/calregs"

/-- `URLDiscoverer.is_section_url`. -/
def is_section_url (url : String) : Bool :=
  let u := strLower url
  if strContains u "/calregs/document/" && strContains u "viewtype=fulltext" then true
  else if strContains u "/calregs/document/" then true
  else strContains u "/calregs/" && (strContains u "document" || strContains u "section")
        && !strContains u "browse"

/-- `URLDiscoverer.is_toc_or_browse_url`. -/
def is_toc_or_browse_url (url : String) : Bool :=
  let u := strLower url
  if strContains u "/calregs/document/" then false
  else strContains u "/calregs/browse/" || (strContains u "calregs" && strContains u "guid=")

/-- The result of `discover_all_urls`: the pages fetched in order, the final
visited / section / discovered sets, and the frontier left at loop exit. -/
structure DiscoverResult where
  fetched : List String
  visited : Finset String
  sections : Finset String
  discovered : Finset String
  frontier : List String

/-- The Python truthiness cap test `if cap and count >= cap`. -/
def capReached (cap : Option Nat) (count : Nat) : Bool :=
  pyTruthyNat cap && cap.getD 0 ≤ count

/-- Frontier add with set semantics (`to_visit.add`): no duplicates. -/
def pushNew {U : Finset String} (tv : List {u : String // u ∈ U})
    (x : {u : String // u ∈ U}) : List {u : String // u ∈ U} :=
  if tv.any (fun y => y.val = x.val) then tv else tv ++ [x]

/-- One link of the inner `for link in links:` loop of `discover_all_urls`:
links already visited are skipped; normalized content links join the section
and discovered sets; normalized navigation links (or links under the base
URL) join the frontier; anything else is dropped. -/
def linkStep {U : Finset String} (visited : Finset String)
    (st : Finset String × Finset String × List {u : String // u ∈ U})
    (l : {l : String // normalize_url l ∈ U}) :
    Finset String × Finset String × List {u : String // u ∈ U} :=
  let (secs, disc, tv) := st
  if l.val ∈ visited then (secs, disc, tv)
  else
    let nrm := normalize_url l.val
    if is_section_url nrm then (insert nrm secs, insert nrm disc, tv)
    else if is_toc_or_browse_url nrm ||
        (strContains nrm (strLower CCR_BASE_URL) && strContains nrm "calregs") then
      (secs, disc, pushNew tv ⟨nrm, l.property⟩)
    else (secs, disc, tv)

section DiscoverLoopSection

attribute [local irreducible] normalize_url urlparse strContains strLower
  containsSub lowerChar is_section_url is_toc_or_browse_url

set_option maxHeartbeats 1600000 in
/-- The `while to_visit:` loop of `URLDiscoverer.discover_all_urls`, over an
explicit finite URL universe `U`: the frontier holds URLs of `U`, and the
closure hypothesis `hU` states that every link found on a page normalizes
into `U` — this is what makes the link graph finite.  The caps are checked
before the pop, and the visited set is checked before a dequeued URL is
processed.  Defined by well-founded recursion on the pair (number of
unvisited universe URLs, frontier length), with no fuel: the definition
itself is the termination argument of the breadth-first loop, cycles
included. -/
def discoverLoop (links : String → List String) (U : Finset String)
    (hU : ∀ u ∈ U, ∀ l ∈ links u, normalize_url l ∈ U)
    (maxPages maxSections : Option Nat) :
    List {u : String // u ∈ U} → Finset String → Finset String → Finset String →
    List String → DiscoverResult
  | [], visited, secs, disc, fetched => ⟨fetched, visited, secs, disc, []⟩
  | cur :: rest, visited, secs, disc, fetched =>
    if capReached maxPages visited.card then
      ⟨fetched, visited, secs, disc, (cur :: rest).map Subtype.val⟩
    else if capReached maxSections disc.card then
      ⟨fetched, visited, secs, disc, (cur :: rest).map Subtype.val⟩
    else if h : cur.val ∈ visited then
      discoverLoop links U hU maxPages maxSections rest visited secs disc fetched
    else
      let visited2 := insert cur.val visited
      let ls := (links cur.val).attach.map fun lp =>
        (⟨lp.val, hU cur.val cur.property lp.val lp.property⟩ :
          {l : String // normalize_url l ∈ U})
      let st := ls.foldl (linkStep visited2) (secs, disc, rest)
      discoverLoop links U hU maxPages maxSections st.2.2 visited2 st.1 st.2.1
        (fetched ++ [cur.val])
  termination_by tv visited _ _ _ => ((U \ visited).card, tv.length)
  decreasing_by
  · exact Prod.Lex.right _ (Nat.lt_succ_self _)
  · refine Prod.Lex.left _ _ ?_
    apply Finset.card_lt_card
    rw [Finset.ssubset_iff_of_subset
      (Finset.sdiff_subset_sdiff (Finset.Subset.refl U) (Finset.subset_insert _ _))]
    exact ⟨cur.val, Finset.mem_sdiff.2 ⟨cur.property, h⟩,
      fun hm => (Finset.mem_sdiff.1 hm).2 (Finset.mem_insert_self _ _)⟩

/-- `URLDiscoverer.discover_all_urls`: run the loop from the frontier
`{start_url}`, an empty visited set, and the checkpoint-loaded discovered
set. -/
def discover_all_urls (links : String → List String) (U : Finset String)
    (hU : ∀ u ∈ U, ∀ l ∈ links u, normalize_url l ∈ U)
    (start : String) (hstart : start ∈ U)
    (maxPages maxSections : Option Nat) (discovered0 : Finset String) :
    DiscoverResult :=
  discoverLoop links U hU maxPages maxSections [⟨start, hstart⟩] ∅ ∅ discovered0 []

end DiscoverLoopSection

/-! ### Concrete fixtures used by closed instances -/

/-- A fetch oracle on which every attempt fails (an unchanged erroring
remote). -/
def fetchAlwaysFail : String → Nat → Except PyErr Page :=
  fun _ _ => .error ⟨"Exception", "Crawl failed: timeout"⟩

/-- A fetch oracle on which every attempt succeeds with a minimal page. -/
def fetchAlwaysOk : String → Nat → Except PyErr Page :=
  fun _ _ => .ok ⟨none, none, ""⟩

/-- A fetch oracle on which one URL succeeds and every other URL fails. -/
def fetchOneOk : String → Nat → Except PyErr Page :=
  fun u _ => if u = "ok-url" then .ok ⟨none, none, ""⟩ else .error ⟨"Exception", "boom"⟩

/-- A ledger line-parse oracle recognizing the single line `REC` as a record
whose `source_url` is `u1`. -/
def parseRec : String → Option (Option String) :=
  fun l => if l = "REC" then some (some "u1") else none

/-- A two-page cyclic universe of navigation URLs. -/
def crawlU : Finset String :=
  {"http://x/calregs/browse/a", "http://x/calregs/browse/b"}

/-- A cyclic link graph on `crawlU`: each page links back to the other. -/
def crawlLinks : String → List String := fun u =>
  if u = "http://x/calregs/browse/a" then ["http://x/calregs/browse/b"]
  else if u = "http://x/calregs/browse/b" then ["http://x/calregs/browse/a"]
  else []

/-! ## Claim C1 — coverage reconciliation

`calculate_coverage` guards with `if total_discovered > 0` and returns `0`
otherwise, so the spec formula `|extracted| / max(|discovered|, 1) × 100`
diverges from the code exactly when the discovered set is empty and the
extracted set is not (the two ledgers are separate files, so that state is
loadable).  Everything else in the claim holds. -/

/-- C1 is false as stated: with an empty discovered set and one extracted URL,
`calculate_coverage` returns coverage 0 while the claimed formula
`|extracted| / max(|discovered|, 1) × 100` gives 100. -/
theorem c1_counterexample :
    (calculate_coverage (∅ : Finset ℕ) {0} ∅).coverage_percentage ≠
      coverageSpecFormula (∅ : Finset ℕ).card ({0} : Finset ℕ).card := by
  simp [calculate_coverage, coverageSpecFormula]

/-- C1 (amended): whenever the discovered set is nonempty or the extracted set
is empty, `calculate_coverage` returns `missing = discovered − extracted` and
`coverage% = |extracted| / max(|discovered|, 1) × 100` (with empty discovered
and nonempty extracted the code returns 0 instead); `generate_report`
classifies coverage ≥ 95 as excellent, ≥ 90 as good, ≥ 80 as acceptable, else
insufficient; and every state with 100 discovered URLs and 80 extracted gets
coverage 80.00 and the acceptable tier. -/
theorem c1_coverage_reconciliation {α : Type} [DecidableEq α]
    (d e f : Finset α) (h : 0 < d.card ∨ e.card = 0) :
    (calculate_coverage d e f).missing_urls = d \ e ∧
    (calculate_coverage d e f).coverage_percentage = coverageSpecFormula d.card e.card ∧
    (∀ q : ℚ,
      (95 ≤ q → coverageTier q = .excellent) ∧
      (90 ≤ q → q < 95 → coverageTier q = .good) ∧
      (80 ≤ q → q < 90 → coverageTier q = .acceptable) ∧
      (q < 80 → coverageTier q = .insufficient)) ∧
    (d.card = 100 → e.card = 80 →
      (calculate_coverage d e f).coverage_percentage = 80 ∧
      coverageTier (calculate_coverage d e f).coverage_percentage = .acceptable) := by
  have hpct : (calculate_coverage d e f).coverage_percentage =
      if d.card > 0 then (e.card : ℚ) / (d.card : ℚ) * 100 else 0 := rfl
  refine ⟨rfl, ?_, ?_, ?_⟩
  · rw [hpct]
    rcases h with h | h
    · rw [if_pos h]
      unfold coverageSpecFormula
      have : max (d.card : ℚ) 1 = (d.card : ℚ) := by
        apply max_eq_left
        exact_mod_cast Nat.one_le_iff_ne_zero.2 (Nat.pos_iff_ne_zero.1 h)
      rw [this]
    · rcases Nat.eq_zero_or_pos d.card with hd | hd
      · rw [if_neg (by omega)]
        unfold coverageSpecFormula
        rw [h, hd]
        norm_num
      · rw [if_pos hd]
        unfold coverageSpecFormula
        have : max (d.card : ℚ) 1 = (d.card : ℚ) := by
          apply max_eq_left
          exact_mod_cast Nat.one_le_iff_ne_zero.2 (Nat.pos_iff_ne_zero.1 hd)
        rw [this]
  · intro q
    refine ⟨?_, ?_, ?_, ?_⟩ <;> intros <;> unfold coverageTier <;> split_ifs <;>
      first | rfl | linarith
  · intro hd he
    have : (calculate_coverage d e f).coverage_percentage = 80 := by
      rw [hpct, hd, he, if_pos (by norm_num)]
      norm_num
    refine ⟨this, ?_⟩
    rw [this]
    unfold coverageTier
    norm_num

/-- Witness for C1 at discovered = range 100, extracted = range 80. -/
theorem c1_coverage_reconciliation_witness :
    (calculate_coverage (Finset.range 100) (Finset.range 80)
      (∅ : Finset ℕ)).coverage_percentage = 80 ∧
    coverageTier (calculate_coverage (Finset.range 100) (Finset.range 80)
      (∅ : Finset ℕ)).coverage_percentage = Tier.acceptable := by
  have h := c1_coverage_reconciliation (Finset.range 100) (Finset.range 80)
    (∅ : Finset ℕ) (Or.inl (by simp))
  exact h.2.2.2 (by simp) (by simp)

/-! ## Lemmas shared by the retry-pass claims -/

/-- The tenacity loop makes between 1 and `n` attempts when the budget is
`n ≥ 1`. -/
theorem attemptFrom_count_bounds (f : Nat → Except PyErr Page) :
    ∀ n i, 1 ≤ n → 1 ≤ (attemptFrom f i n).1 ∧ (attemptFrom f i n).1 ≤ n := by
  intro n
  induction n using Nat.strong_induction_on with
  | _ n ih =>
    intro i hn
    match n, hn with
    | 1, _ => simp [attemptFrom]
    | (m + 2), _ =>
      cases hf : f i with
      | ok pg => constructor <;> simp [attemptFrom, hf]
      | error e =>
        have h2 := ih (m + 1) (by omega) (i + 1) (by omega)
        constructor <;> simp [attemptFrom, hf] <;> omega

/-- `extract_section` stamps the fetched URL as `source_url`. -/
theorem extract_section_source_url (url : String) (pg : Page) :
    (extract_section url pg).source_url = url := rfl

/-- A successful decorated call yields a record keyed by the URL it was
called on. -/
theorem okRec_some_source (fetch : String → Nat → Except PyErr Page)
    {u : String} {sec : CCRSection} (h : extractOkRec fetch u = some sec) :
    sec.source_url = u := by
  unfold extractOkRec at h
  have hcall : (extractCall fetch u).2
      = ((attemptFrom (fetch u) 0 MAX_RETRIES).2).map (extract_section u) := rfl
  rw [hcall] at h
  cases hr : (attemptFrom (fetch u) 0 MAX_RETRIES).2 with
  | ok pg =>
    rw [hr] at h
    simp only [Except.map] at h
    cases h
    exact extract_section_source_url u pg
  | error e =>
    rw [hr] at h
    simp [Except.map] at h

/-- The URLs of the still-failing records are exactly the processed URLs
whose decorated call failed, in order. -/
theorem filterMap_failRec_map_url (fetch : String → Nat → Except PyErr Page)
    (rc : Nat) :
    ∀ urls : List String,
      (urls.filterMap (extractFailRec fetch rc)).map (·.url) =
        urls.filter (fun u => !(extractCall fetch u).2.isOk) := by
  intro urls
  induction urls with
  | nil => rfl
  | cons u rest ih =>
    cases hc : (extractCall fetch u).2 with
    | ok sec => simp [extractFailRec, hc, Except.isOk, Except.toBool, List.filter_cons, ih]
    | error e => simp [extractFailRec, hc, Except.isOk, Except.toBool, List.filter_cons, ih]

/-- The source URLs of the promoted records are exactly the processed URLs
whose decorated call succeeded, in order. -/
theorem filterMap_okRec_map_source (fetch : String → Nat → Except PyErr Page) :
    ∀ urls : List String,
      (urls.filterMap (extractOkRec fetch)).map (·.source_url) =
        urls.filter (fun u => (extractCall fetch u).2.isOk) := by
  intro urls
  induction urls with
  | nil => rfl
  | cons u rest ih =>
    cases hc : (extractCall fetch u).2 with
    | ok sec =>
      have hsrc : sec.source_url = u := by
        apply okRec_some_source fetch
        simp [extractOkRec, hc]
      simp [extractOkRec, hc, Except.isOk, Except.toBool, List.filter_cons, ih, hsrc]
    | error e => simp [extractOkRec, hc, Except.isOk, Except.toBool, List.filter_cons, ih]

/-- Membership facts for a still-failing record. -/
theorem mem_failRec (fetch : String → Nat → Except PyErr Page) (rc : Nat)
    {urls : List String} {rec : FailedURL}
    (h : rec ∈ urls.filterMap (extractFailRec fetch rc)) :
    rec.retry_count = rc ∧ rec.url ∈ urls ∧
      (extractCall fetch rec.url).2.isOk = false := by
  rcases List.mem_filterMap.1 h with ⟨u, hu, hrec⟩
  unfold extractFailRec at hrec
  cases hc : (extractCall fetch u).2 with
  | ok sec => rw [hc] at hrec; cases hrec
  | error e =>
    rw [hc] at hrec
    cases hrec
    exact ⟨rfl, hu, by simp [hc, Except.isOk, Except.toBool]⟩

/-- Re-running the per-URL outcomes over the still-failing URLs reproduces the
same failing records (the constant `retry_count = 1`) and promotes nothing. -/
theorem retry_converges (fetch : String → Nat → Except PyErr Page) :
    ∀ urls : List String,
      (((urls.filterMap (extractFailRec fetch 1)).map (·.url)).filterMap
          (extractFailRec fetch 1) = urls.filterMap (extractFailRec fetch 1)) ∧
      (((urls.filterMap (extractFailRec fetch 1)).map (·.url)).filterMap
          (extractOkRec fetch) = []) := by
  intro urls
  induction urls with
  | nil => exact ⟨rfl, rfl⟩
  | cons u rest ih =>
    cases hc : (extractCall fetch u).2 with
    | ok sec =>
      constructor
      · simpa [extractFailRec, hc] using ih.1
      · simpa [extractFailRec, hc] using ih.2
    | error e =>
      constructor
      · simp [extractFailRec, hc, ih.1]
      · simp [extractFailRec, extractOkRec, hc, ih.2]

/-! ## Claim C3 — one retry attempt per URL

The retry pass calls the decorated `extract_section` once per ledger URL, but
that call is wrapped by tenacity `@retry(stop_after_attempt(MAX_RETRIES),
wait_exponential, reraise=True)`, so a still-failing URL is attempted
`MAX_RETRIES = 5` times with backoff inside the pass — not exactly once. -/

/-- C3 is false as stated: on a one-URL ledger whose URL keeps failing, the
retry pass makes 5 extraction attempts on that URL, not exactly one. -/
theorem c3_counterexample :
    (retry_failed_extractions [⟨"u1", "Exception", "boom", 0⟩]
        fetchAlwaysFail).attemptsPerUrl = [("u1", 5)] ∧ (5 : Nat) ≠ 1 := by
  constructor
  · rfl
  · decide

/-- C3 (amended): the retry pass makes exactly one decorated
`extract_section` call per loaded URL, in ledger order, and that single call
internally performs between 1 and `MAX_RETRIES` fetch attempts (tenacity
`stop_after_attempt` with exponential backoff) rather than a single
attempt. -/
theorem c3_retry_attempts (ledger : List FailedURL)
    (fetch : String → Nat → Except PyErr Page) :
    ((retry_failed_extractions ledger fetch).attemptsPerUrl.map Prod.fst
        = ledger.map (·.url)) ∧
    (∀ p ∈ (retry_failed_extractions ledger fetch).attemptsPerUrl,
        1 ≤ p.2 ∧ p.2 ≤ MAX_RETRIES) := by
  cases ledger with
  | nil => exact ⟨rfl, by intro p hp; cases hp⟩
  | cons a l =>
    have hne : ((a :: l).map (·.url)).isEmpty = false := rfl
    constructor
    · simp [retry_failed_extractions, hne, List.map_map, Function.comp]
    · intro p hp
      simp only [retry_failed_extractions, hne, Bool.false_eq_true, if_false,
        List.mem_map] at hp
      rcases hp with ⟨u, _, rfl⟩
      exact attemptFrom_count_bounds (fetch u) MAX_RETRIES 0 (by decide)

/-- Witness for C3 on a one-URL ledger with a first-attempt success. -/
theorem c3_retry_attempts_witness :
    (retry_failed_extractions [⟨"u2", "Exception", "x", 0⟩]
        fetchAlwaysOk).attemptsPerUrl.map Prod.fst = ["u2"] ∧
    (1 ≤ (1 : Nat) ∧ (1 : Nat) ≤ MAX_RETRIES) := by
  have h := c3_retry_attempts [⟨"u2", "Exception", "x", 0⟩] fetchAlwaysOk
  exact ⟨h.1, h.2 ("u2", 1) (by decide)⟩

/-! ## Claim C4 — the failure-ledger rewrite

The rewrite is a full overwrite containing exactly the still-failing URLs and
the successes are promoted, but `retry_failed_extractions` writes
`retry_count=1` as a constant, not the previous record incremented. -/

/-- C4 is false as stated: a still-failing record whose previous ledger
record had `retry_count = 1` is rewritten with `retry_count = 1` again, not
with the incremented value 2. -/
theorem c4_counterexample :
    (retry_failed_extractions [⟨"u1", "Exception", "boom", 1⟩]
        fetchAlwaysFail).stillFailed =
      [⟨"u1", "Exception", "Crawl failed: timeout", 1⟩] ∧ (1 : Nat) ≠ 1 + 1 := by
  constructor
  · rfl
  · decide

/-- C4 (amended): after a retry pass over a nonempty ledger, the failure
ledger is rewritten in full and contains exactly the URLs that still failed
in this pass, in order, each with `retry_count` set to the constant 1 (not
incremented from its previous record); URLs whose retry succeeded are absent
from the new failure ledger and appended to the extracted-sections ledger. -/
theorem c4_retry_ledger_rewrite (ledger : List FailedURL)
    (fetch : String → Nat → Except PyErr Page) (h : ledger ≠ []) :
    ((retry_failed_extractions ledger fetch).stillFailed.map (·.url)
        = (ledger.map (·.url)).filter (fun u => !(extractCall fetch u).2.isOk)) ∧
    (∀ rec ∈ (retry_failed_extractions ledger fetch).stillFailed,
        rec.retry_count = 1 ∧ (extractCall fetch rec.url).2.isOk = false) ∧
    ((retry_failed_extractions ledger fetch).newRecords.map (·.source_url)
        = (ledger.map (·.url)).filter (fun u => (extractCall fetch u).2.isOk)) ∧
    (∀ u ∈ ledger.map (·.url), (extractCall fetch u).2.isOk = true →
        u ∉ (retry_failed_extractions ledger fetch).stillFailed.map (·.url)) := by
  have hne : (ledger.map (·.url)).isEmpty = false := by
    cases ledger with
    | nil => exact absurd rfl h
    | cons a l => rfl
  have hsf : (retry_failed_extractions ledger fetch).stillFailed
      = (ledger.map (·.url)).filterMap (extractFailRec fetch 1) := by
    simp [retry_failed_extractions, hne]
  have hnr : (retry_failed_extractions ledger fetch).newRecords
      = (ledger.map (·.url)).filterMap (extractOkRec fetch) := by
    simp [retry_failed_extractions, hne]
  refine ⟨?_, ?_, ?_, ?_⟩
  · rw [hsf]; exact filterMap_failRec_map_url fetch 1 _
  · intro rec hrec
    rw [hsf] at hrec
    have := mem_failRec fetch 1 hrec
    exact ⟨this.1, this.2.2⟩
  · rw [hnr]; exact filterMap_okRec_map_source fetch _
  · intro u _ hok hmem
    rw [hsf, filterMap_failRec_map_url fetch 1] at hmem
    have := List.of_mem_filter hmem
    rw [hok] at this
    cases this

/-- Witness for C4 on a two-URL ledger with one success and one failure. -/
theorem c4_retry_ledger_rewrite_witness :
    ((retry_failed_extractions [⟨"ok-url", "E", "m", 2⟩, ⟨"u1", "E", "m", 0⟩]
        fetchOneOk).stillFailed.map (·.url) = ["u1"]) ∧
    ((retry_failed_extractions [⟨"ok-url", "E", "m", 2⟩, ⟨"u1", "E", "m", 0⟩]
        fetchOneOk).newRecords.map (·.source_url) = ["ok-url"]) := by
  have h := c4_retry_ledger_rewrite
    [⟨"ok-url", "E", "m", 2⟩, ⟨"u1", "E", "m", 0⟩] fetchOneOk (by decide)
  exact ⟨h.1.trans (by decide), h.2.2.1.trans (by decide)⟩

/-! ## Claim C5 — retry-pass idempotence -/

/-- C5: the retry pass is idempotent: with an unchanged remote source (the
same fetch oracle), the failure ledger after a second run is identical to the
ledger after the first, and the second run promotes nothing to the extracted
ledger.  (Record contents are compared; the wall-clock `failed_at` field is
outside the model.  The equality holds because every still-failing URL fails
again and is rewritten with the same constant `retry_count = 1`.) -/
theorem c5_retry_idempotent (ledger : List FailedURL)
    (fetch : String → Nat → Except PyErr Page) :
    ((retry_failed_extractions
        (retry_failed_extractions ledger fetch).stillFailed fetch).stillFailed
      = (retry_failed_extractions ledger fetch).stillFailed) ∧
    ((retry_failed_extractions
        (retry_failed_extractions ledger fetch).stillFailed fetch).newRecords
      = []) := by
  cases ledger with
  | nil => exact ⟨rfl, rfl⟩
  | cons a l =>
    have hne : (((a :: l) : List FailedURL).map (·.url)).isEmpty = false := rfl
    have hsf : (retry_failed_extractions (a :: l) fetch).stillFailed
        = (((a :: l) : List FailedURL).map (·.url)).filterMap (extractFailRec fetch 1) := by
      simp [retry_failed_extractions, hne]
    have key := retry_converges fetch (((a :: l) : List FailedURL).map (·.url))
    rw [hsf]
    obtain ⟨F, hF⟩ : ∃ F, (((a :: l) : List FailedURL).map (·.url)).filterMap
        (extractFailRec fetch 1) = F := ⟨_, rfl⟩
    rw [hF] at key ⊢
    cases F with
    | nil => exact ⟨rfl, rfl⟩
    | cons b t =>
      have hne2 : (((b :: t) : List FailedURL).map (·.url)).isEmpty = false := rfl
      constructor
      · have hstep : (retry_failed_extractions (b :: t) fetch).stillFailed
            = (((b :: t) : List FailedURL).map (·.url)).filterMap (extractFailRec fetch 1) := by
          simp [retry_failed_extractions, hne2]
        rw [hstep]
        exact key.1
      · have hstep : (retry_failed_extractions (b :: t) fetch).newRecords
            = (((b :: t) : List FailedURL).map (·.url)).filterMap (extractOkRec fetch) := by
          simp [retry_failed_extractions, hne2]
        rw [hstep]
        exact key.2

/-! ## Claim C2 — extraction idempotence with respect to the extracted
ledger -/

/-- URLs collected for processing are never already-extracted keys: the
membership test runs before any fetch. -/
theorem collectUrls_not_mem_keys (keys : List (Option String)) (limit : Option Nat) :
    ∀ (L : List String) (c : Nat) (u : String),
      u ∈ collectUrls keys limit L c → (some u) ∉ keys := by
  intro L
  induction L with
  | nil => intro c u hu; cases hu
  | cons v rest ih =>
    intro c u hu
    by_cases hv : (some v) ∈ keys
    · simp only [collectUrls, if_pos hv] at hu
      exact ih c u hu
    · simp only [collectUrls, if_neg hv] at hu
      rcases List.mem_cons.1 hu with rfl | hu2
      · exact hv
      · split at hu2
        · cases hu2
        · exact ih (c + 1) u hu2

/-- C2: re-running `process_discovered_urls` appends no record for a URL
whose `source_url` key is already present in the extracted-sections ledger:
the key set is reloaded from the ledger on startup and such URLs are skipped
before any fetch. -/
theorem c2_extraction_idempotent (fs : FileState)
    (parseLine : String → Option (Option String)) (discovered : List String)
    (limit : Option Nat) (fetch : String → Nat → Except PyErr Page)
    (url : String) (h : (some url) ∈ load_extracted_urls fs parseLine) :
    url ∉ (process_discovered_urls fs parseLine discovered limit
      fetch).newRecords.map (·.source_url) := by
  intro hmem
  have hrec : (process_discovered_urls fs parseLine discovered limit fetch).newRecords
      = (collectUrls (load_extracted_urls fs parseLine) limit discovered 0).filterMap
          (extractOkRec fetch) := rfl
  rw [hrec, filterMap_okRec_map_source] at hmem
  exact collectUrls_not_mem_keys _ _ _ _ _ (List.mem_of_mem_filter hmem) h

/-- Witness for C2: an already-populated one-record ledger with key `u1`,
re-run over a discovered file listing `u1` and `u2` against an
always-succeeding source, appends no record for `u1`. -/
theorem c2_extraction_idempotent_witness :
    "u1" ∉ (process_discovered_urls (.lines ["REC"]) parseRec ["u1", "u2"]
      none fetchAlwaysOk).newRecords.map (·.source_url) := by
  apply c2_extraction_idempotent
  decide

/-! ## Lemmas on the section-number matchers (claims C6 and C8) -/

/-- A successful `numAt` has a nonempty group. -/
theorem numAt_group_ne_nil {cs : List Char} {g r : List Char}
    (h : numAt cs = some (g, r)) : g ≠ [] := by
  unfold numAt at h
  dsimp only at h
  split at h
  · cases h
  · rename_i hds
    have hne : cs.takeWhile Char.isDigit ≠ [] := by
      intro he
      rw [he] at hds
      simp at hds
    split at h
    · split at h
      · rw [Option.some_inj, Prod.mk.injEq] at h
        rw [← h.1]
        exact hne
      · rw [Option.some_inj, Prod.mk.injEq] at h
        rw [← h.1]
        intro happ
        exact hne (List.append_eq_nil.1 happ).1
    · rw [Option.some_inj, Prod.mk.injEq] at h
      rw [← h.1]
      exact hne

/-- The marker matcher only returns nonempty groups. -/
theorem tryMarker_group_ne_nil {p : Option Char} {cs g : List Char}
    (h : tryMarker p cs = some g) : g ≠ [] := by
  unfold tryMarker at h
  split at h
  · cases h
  · split at h
    · cases h
    · rename_i heq
      rw [Option.some_inj] at h
      rw [← h]
      exact numAt_group_ne_nil heq

/-- The `Section N` matcher only returns nonempty groups. -/
theorem trySectionWord_group_ne_nil {p : Option Char} {cs g : List Char}
    (h : trySectionWord p cs = some g) : g ≠ [] := by
  unfold trySectionWord at h
  split at h
  · cases h
  · cases h
  · split at h
    · split at h
      · cases h
      · rename_i heq
        rw [Option.some_inj] at h
        rw [← h]
        exact numAt_group_ne_nil heq
    · cases h

/-- The `sec. N` matcher only returns nonempty groups. -/
theorem trySecDot_group_ne_nil {p : Option Char} {cs g : List Char}
    (h : trySecDot p cs = some g) : g ≠ [] := by
  unfold trySecDot at h
  split at h
  · cases h
  · split at h
    · cases h
    · rename_i heq
      rw [Option.some_inj] at h
      rw [← h]
      exact numAt_group_ne_nil heq

/-- The bare-number matcher only returns nonempty groups. -/
theorem tryBare_group_ne_nil {p : Option Char} {cs g : List Char}
    (h : tryBare p cs = some g) : g ≠ [] := by
  unfold tryBare at h
  dsimp only at h
  split at h
  · split at h
    · rename_i hl
      split at h
      · split at h
        · rw [Option.some_inj] at h
          rw [← h]
          intro happ
          have := (List.append_eq_nil.1 happ).1
          rw [this] at hl
          simp at hl
        · rw [Option.some_inj] at h
          rw [← h]
          intro he
          rw [he] at hl
          simp at hl
      · split at h
        · rw [Option.some_inj] at h
          rw [← h]
          intro he
          rw [he] at hl
          simp at hl
        · cases h
    · cases h
  · cases h

/-- The URL-digits matcher only returns nonempty groups. -/
theorem tryUrlNum_group_ne_nil {p : Option Char} {cs g : List Char}
    (h : tryUrlNum p cs = some g) : g ≠ [] := by
  unfold tryUrlNum at h
  dsimp only at h
  split at h
  · split at h
    · split at h
      · rename_i hl
        split at h
        · split at h
          · rw [Option.some_inj] at h
            rw [← h]
            intro happ
            have := (List.append_eq_nil.1 happ).1
            rw [this] at hl
            simp at hl
          · cases h
        · split at h
          · rw [Option.some_inj] at h
            rw [← h]
            intro he
            rw [he] at hl
            simp at hl
          · cases h
      · cases h
    · cases h
  · cases h

/-- Transfer of a per-position property through the leftmost search. -/
theorem reSearch_imp (tryAt : Option Char → List Char → Option (List Char))
    (P : List Char → Prop)
    (hP : ∀ (p : Option Char) (c : List Char) (g : List Char),
      tryAt p c = some g → P g) :
    ∀ (cs : List Char) (prev : Option Char) (g : List Char),
      reSearch tryAt prev cs = some g → P g := by
  intro cs
  induction cs with
  | nil => intro prev g h; exact hP _ _ _ h
  | cons c rest ih =>
    intro prev g h
    unfold reSearch at h
    cases ht : tryAt prev (c :: rest) with
    | some g2 =>
      rw [ht] at h
      rw [Option.some_inj] at h
      rw [← h]
      exact hP _ _ _ ht
    | none =>
      rw [ht] at h
      exact ih (some c) g h

/-- A derived heading/breadcrumb section number is a nonempty string. -/
theorem extract_section_number_ne_empty {t s : String}
    (h : extract_section_number t = some s) : s ≠ "" := by
  have hmk : ∀ g : List Char, g ≠ [] → String.mk g ≠ "" := by
    intro g hg he
    exact hg (congrArg String.data he)
  unfold extract_section_number at h
  dsimp only at h
  split at h
  · cases h
  · split at h
    · rename_i g hg
      rw [Option.some_inj] at h
      rw [← h]
      exact hmk g (reSearch_imp tryMarker (· ≠ [])
        (fun _ _ _ hm => tryMarker_group_ne_nil hm) _ _ _ hg)
    · split at h
      · rename_i g hg
        rw [Option.some_inj] at h
        rw [← h]
        exact hmk g (reSearch_imp trySectionWord (· ≠ [])
          (fun _ _ _ hm => trySectionWord_group_ne_nil hm) _ _ _ hg)
      · split at h
        · rename_i g hg
          rw [Option.some_inj] at h
          rw [← h]
          exact hmk g (reSearch_imp trySecDot (· ≠ [])
            (fun _ _ _ hm => trySecDot_group_ne_nil hm) _ _ _ hg)
        · rcases Option.map_eq_some'.1 h with ⟨g, hg, rfl⟩
          exact hmk g (reSearch_imp tryBare (· ≠ [])
            (fun _ _ _ hm => tryBare_group_ne_nil hm) _ _ _ hg)

/-- A URL-derived section number is a nonempty string. -/
theorem extract_section_number_from_url_ne_empty {u s : String}
    (h : extract_section_number_from_url u = some s) : s ≠ "" := by
  unfold extract_section_number_from_url at h
  rcases Option.map_eq_some'.1 h with ⟨g, hg, rfl⟩
  intro he
  exact (reSearch_imp tryUrlNum (· ≠ [])
    (fun _ _ _ hm => tryUrlNum_group_ne_nil hm) _ _ _ hg) (congrArg String.data he)

/-- A nonempty string is not `isEmpty`. -/
theorem isEmpty_false_of_ne {s : String} (hs : s ≠ "") : s.isEmpty = false := by
  cases hb : s.isEmpty
  · rfl
  · exact absurd ((String.isEmpty_iff s).1 hb) hs

/-- Python truthiness of a nonempty optional string. -/
theorem pyTruthyStr_of_ne {s : String} (hs : s ≠ "") :
    pyTruthyStr (some s) = true := by
  simp [pyTruthyStr, isEmpty_false_of_ne hs]

/-- Fallback chain, case 1: a nonempty heading-derived number wins. -/
theorem derive_section_number_of_heading {s : String} (hs : s ≠ "")
    (url bc : String) : derive_section_number (some s) url bc = s := by
  simp [derive_section_number, pyTruthyStr, isEmpty_false_of_ne hs]

/-- Fallback chain, case 2: with no heading-derived number, a nonempty
URL-derived number wins. -/
theorem derive_section_number_of_url {s : String} (url bc : String)
    (h : extract_section_number_from_url url = some s) :
    derive_section_number none url bc = s := by
  have hs := extract_section_number_from_url_ne_empty h
  unfold derive_section_number
  rw [h]
  simp [pyTruthyStr, isEmpty_false_of_ne hs]

/-- Fallback chain, case 3: with no heading- or URL-derived number, a
breadcrumb-derived number wins. -/
theorem derive_section_number_of_bc {s : String} (url bc : String)
    (hu : extract_section_number_from_url url = none)
    (hb : extract_section_number bc = some s) :
    derive_section_number none url bc = s := by
  have hs := extract_section_number_ne_empty hb
  unfold derive_section_number
  rw [hu, hb]
  simp [pyTruthyStr, isEmpty_false_of_ne hs]

/-- Fallback chain, case 4: with every source exhausted, the literal
`"unknown"`. -/
theorem derive_section_number_unknown (url bc : String)
    (hu : extract_section_number_from_url url = none)
    (hb : extract_section_number bc = none) :
    derive_section_number none url bc = "unknown" := by
  unfold derive_section_number
  rw [hu, hb]
  simp [pyTruthyStr]

/-- `extract_section` computes its `section_number` by the fallback chain on
the heading-derived number, the URL, and the breadcrumb path. -/
theorem extract_section_section_number (url : String) (pg : Page) :
    (extract_section url pg).section_number
      = derive_section_number (pg.headingText.bind extract_section_number) url
          (parse_breadcrumb pg.breadcrumbText).breadcrumb_path := by
  obtain ⟨ht, bt, cm⟩ := pg
  cases ht <;> rfl

/-! ## Claim C6 — the section-number fallback chain -/

/-- C6: the section number is derived by the ordered fallback chain — the
heading patterns (the explicit section-marker pattern first, then the generic
`Section N` / `sec. N` text patterns, then the bare 3+-digit number), then
digits in the URL path, then digits in the breadcrumb trail, then the literal
`"unknown"` — and the explicit marker pattern wins over the bare-number
pattern whenever it matches; in particular the heading
`"§ 1234 — miscellaneous, see also 789"` yields `"1234"`, not `"789"`,
whatever the URL and breadcrumb are. -/
theorem c6_section_number_chain :
    (∀ (url : String) (bc : Option String) (content : String),
      (extract_section url
        ⟨some "§ 1234 — miscellaneous, see also 789", bc, content⟩).section_number
        = "1234") ∧
    (∀ (text : String) (g : List Char),
      reSearch tryMarker none text.toList = some g →
      extract_section_number text = some (String.mk g)) ∧
    (∀ (url : String) (pg : Page) (s : String),
      pg.headingText.bind extract_section_number = some s →
      (extract_section url pg).section_number = s) ∧
    (∀ (url : String) (pg : Page) (s : String),
      pg.headingText.bind extract_section_number = none →
      extract_section_number_from_url url = some s →
      (extract_section url pg).section_number = s) ∧
    (∀ (url : String) (pg : Page) (s : String),
      pg.headingText.bind extract_section_number = none →
      extract_section_number_from_url url = none →
      extract_section_number (parse_breadcrumb pg.breadcrumbText).breadcrumb_path
        = some s →
      (extract_section url pg).section_number = s) ∧
    (∀ (url : String) (pg : Page),
      pg.headingText.bind extract_section_number = none →
      extract_section_number_from_url url = none →
      extract_section_number (parse_breadcrumb pg.breadcrumbText).breadcrumb_path
        = none →
      (extract_section url pg).section_number = "unknown") := by
  have hheading : ∀ (url : String) (pg : Page) (s : String),
      pg.headingText.bind extract_section_number = some s →
      (extract_section url pg).section_number = s := by
    intro url pg s hbind
    rw [extract_section_section_number, hbind]
    have hs : s ≠ "" := by
      cases hh : pg.headingText with
      | none => rw [hh] at hbind; cases hbind
      | some t =>
        rw [hh] at hbind
        exact extract_section_number_ne_empty hbind
    exact derive_section_number_of_heading hs url _
  refine ⟨?_, ?_, hheading, ?_, ?_, ?_⟩
  · intro url bc content
    apply hheading
    show extract_section_number "§ 1234 — miscellaneous, see also 789" = some "1234"
    decide
  · intro text g hg
    have hne : ¬ text.isEmpty = true := by
      intro hempty
      have he : text = "" := (String.isEmpty_iff text).1 hempty
      rw [he] at hg
      have : reSearch tryMarker none ("" : String).toList = none := rfl
      rw [this] at hg
      cases hg
    unfold extract_section_number
    rw [if_neg hne]
    dsimp only
    rw [hg]
  · intro url pg s hbind hurl
    rw [extract_section_section_number, hbind]
    exact derive_section_number_of_url url _ hurl
  · intro url pg s hbind hurl hbc
    rw [extract_section_section_number, hbind]
    exact derive_section_number_of_bc url _ hurl hbc
  · intro url pg hbind hurl hbc
    rw [extract_section_section_number, hbind]
    exact derive_section_number_unknown url _ hurl hbc

/-- Witness for C6 at a concrete page around the claimed heading. -/
theorem c6_section_number_chain_witness :
    (extract_section "https://example.com/doc"
      ⟨some "§ 1234 — miscellaneous, see also 789", none, ""⟩).section_number
      = "1234" :=
  c6_section_number_chain.1 "https://example.com/doc" none ""

/-- `extract_section` computes its `citation` by `build_citation` on the
breadcrumb title number and the derived section number. -/
theorem extract_section_citation_eq (url : String) (pg : Page) :
    (extract_section url pg).citation
      = build_citation (parse_breadcrumb pg.breadcrumbText).title_number
          (some ((extract_section url pg).section_number)) := by
  obtain ⟨ht, bt, cm⟩ := pg
  cases ht <;> rfl

/-- The breadcrumb part-classification loop never touches `title_number`. -/
theorem classifyPart_title_number (m : Breadcrumb) (part : String) :
    (classifyPart m part).title_number = m.title_number := by
  unfold classifyPart
  dsimp only
  split_ifs <;> rfl

/-- Folding the part classification never touches `title_number`. -/
theorem foldl_classifyPart_title (parts : List String) :
    ∀ m : Breadcrumb, (parts.foldl classifyPart m).title_number = m.title_number := by
  induction parts with
  | nil => intro m; rfl
  | cons p rest ih =>
    intro m
    rw [List.foldl_cons, ih, classifyPart_title_number]

/-- The `if title_num:` truthiness guard keeps a parsed title number of 0 out
of the metadata: `title_number` is never `some 0`. -/
theorem parse_breadcrumb_title_ne_zero (bt : Option String) :
    (parse_breadcrumb bt).title_number ≠ some 0 := by
  cases bt with
  | none => simp [parse_breadcrumb]
  | some t =>
    unfold parse_breadcrumb
    dsimp only
    rw [foldl_classifyPart_title]
    cases htn : extract_title_number t with
    | none => simp [pyTruthyNat, htn]
    | some n =>
      by_cases hn : n = 0
      · subst hn; simp [pyTruthyNat, htn]
      · simp [pyTruthyNat, htn, hn]

/-- A truthy optional string defaults to a nonempty string. -/
theorem getD_ne_of_truthy {o : Option String} (h : pyTruthyStr o = true) :
    o.getD "" ≠ "" := by
  cases o with
  | none => cases h
  | some s =>
    have hb : (!s.isEmpty) = true := h
    intro he
    rw [Option.getD_some] at he
    rw [he] at hb
    exact absurd hb (by decide)

/-- The fallback chain always produces a nonempty section number. -/
theorem derive_section_number_ne_empty (h : Option String) (u b : String) :
    derive_section_number h u b ≠ "" := by
  unfold derive_section_number
  dsimp only
  cases h1 : pyTruthyStr h with
  | true =>
    simp only [h1, if_true, eq_self_iff_true]
    exact getD_ne_of_truthy h1
  | false =>
    simp [h1]
    cases h2 : pyTruthyStr (extract_section_number_from_url u) with
    | true =>
      simp only [h2, if_true, eq_self_iff_true]
      exact getD_ne_of_truthy h2
    | false =>
      simp [h2]
      cases h3 : pyTruthyStr (extract_section_number b) with
      | true =>
        simp only [h3, if_true, eq_self_iff_true]
        exact getD_ne_of_truthy h3
      | false =>
        simp [h3]

/-! ## Claim C8 — the citation format -/

/-- C8: the citation is `"{title_number} CCR § {section_number}"` when a
(truthy) title number is known, `"CCR § {section_number}"` when only a
section number is known, and the literal unknown-section marker when neither
is; as invoked by `extract_section`, the section number produced by the
fallback chain is always nonempty and the breadcrumb title number is never
the falsy 0, so these three branches are exactly the reachable formats (the
source emits its double-encoded section sign, `citMarker`). -/
theorem c8_citation_format :
    (∀ (n : Nat) (s : String), n ≠ 0 → s ≠ "" →
      build_citation (some n) (some s)
        = toString n ++ " CCR " ++ citMarker ++ " " ++ s) ∧
    (∀ s : String, s ≠ "" →
      build_citation none (some s) = "CCR " ++ citMarker ++ " " ++ s) ∧
    build_citation none none = "CCR (unknown section)" ∧
    (∀ (url : String) (pg : Page),
      (extract_section url pg).citation
        = build_citation (parse_breadcrumb pg.breadcrumbText).title_number
            (some ((extract_section url pg).section_number)) ∧
      (extract_section url pg).section_number ≠ "" ∧
      (parse_breadcrumb pg.breadcrumbText).title_number ≠ some 0) := by
  refine ⟨?_, ?_, rfl, ?_⟩
  · intro n s hn hs
    simp [build_citation, pyTruthyNat, pyTruthyStr, hn, isEmpty_false_of_ne hs]
  · intro s hs
    simp [build_citation, pyTruthyNat, pyTruthyStr, isEmpty_false_of_ne hs]
  · intro url pg
    refine ⟨extract_section_citation_eq url pg, ?_, parse_breadcrumb_title_ne_zero _⟩
    rw [extract_section_section_number]
    exact derive_section_number_ne_empty _ _ _

/-- Witness for C8 at title 17, section 1234, and at the unknown marker. -/
theorem c8_citation_format_witness :
    build_citation (some 17) (some "1234")
      = toString 17 ++ " CCR " ++ citMarker ++ " " ++ "1234" ∧
    build_citation none none = "CCR (unknown section)" := by
  have h := c8_citation_format
  exact ⟨h.1 17 "1234" (by decide) (by decide), h.2.2.1⟩

/-! ## Lemmas on URL splitting (claim C7) -/

/-- `takeWhile` does not see past a failing element. -/
theorem takeWhile_append_stop {p : Char → Bool} (xs : List Char) {y : Char}
    (ys : List Char) (hy : p y = false) :
    List.takeWhile p (xs ++ y :: ys) = List.takeWhile p xs := by
  induction xs with
  | nil => simp [List.takeWhile_cons, hy]
  | cons x xs ih => by_cases hx : p x <;> simp [List.takeWhile_cons, hx, ih]

/-- `dropWhile` keeps everything from a failing element on. -/
theorem dropWhile_append_stop {p : Char → Bool} (xs : List Char) {y : Char}
    (ys : List Char) (hy : p y = false) :
    List.dropWhile p (xs ++ y :: ys) = List.dropWhile p xs ++ y :: ys := by
  induction xs with
  | nil => simp [List.dropWhile_cons, hy]
  | cons x xs ih => by_cases hx : p x <;> simp [List.dropWhile_cons, hx, ih]

/-- `Char.ofNat` round-trips on code points below the surrogate range. -/
theorem charOfNat_toNat {n : Nat} (h : n < 55296) : (Char.ofNat n).toNat = n := by
  unfold Char.ofNat
  split
  · rfl
  · rename_i hv
    exact absurd (Or.inl h) hv

/-- Lowercasing only produces `#` from `#` itself. -/
theorem lowerChar_eq_hash {c : Char} (h : lowerChar c = '#') : c = '#' := by
  unfold lowerChar at h
  split at h
  · rename_i hr
    have := congrArg Char.toNat h
    rw [charOfNat_toNat (by omega)] at this
    have h35 : ('#' : Char).toNat = 35 := rfl
    rw [h35] at this
    omega
  · split at h
    · rename_i hr
      have := congrArg Char.toNat h
      rw [charOfNat_toNat (by omega)] at this
      have h35 : ('#' : Char).toNat = 35 := rfl
      rw [h35] at this
      omega
    · exact h

/-- The scheme component never contains `#`. -/
theorem splitScheme_no_hash (cs : List Char) : '#' ∉ (splitScheme cs).1 := by
  unfold splitScheme
  cases hf : cs.findIdx? (· = ':') with
  | none =>
    dsimp only
    exact List.not_mem_nil _
  | some i =>
    dsimp only
    by_cases hC : 0 < i ∧ (cs.take i).all isSchemeChar = true ∧
        cs.head?.elim false Char.isAlpha = true
    · rw [if_pos hC]
      dsimp only
      intro hmem
      rcases List.mem_map.1 hmem with ⟨c, hc, hlc⟩
      have hcs := List.all_eq_true.1 hC.2.1 c hc
      rw [lowerChar_eq_hash hlc] at hcs
      exact absurd hcs (by decide)
    · rw [if_neg hC]
      exact List.not_mem_nil _

/-- The netloc component never contains `#`. -/
theorem splitNetloc_no_hash (cs : List Char) : '#' ∉ (splitNetloc cs).1 := by
  unfold splitNetloc
  by_cases hC : cs.take 2 = ['/', '/']
  · rw [if_pos hC]
    dsimp only
    intro hmem
    have := List.mem_takeWhile_imp hmem
    exact absurd this (by decide)
  · rw [if_neg hC]
    exact List.not_mem_nil _

/-- The before-part of a split never contains the separator. -/
theorem splitAtChar_fst_no_sep (sep : Char) (cs : List Char) :
    sep ∉ (splitAtChar sep cs).1 := by
  intro hmem
  have := List.mem_takeWhile_imp hmem
  simp at this

/-- Both parts of a split draw from the input. -/
theorem splitAtChar_fst_subset (sep : Char) (cs : List Char) :
    (splitAtChar sep cs).1 ⊆ cs :=
  (List.takeWhile_sublist _).subset

/-- The after-part of a split draws from the input. -/
theorem splitAtChar_snd_subset (sep : Char) (cs : List Char) :
    (splitAtChar sep cs).2 ⊆ cs :=
  fun _ hx => List.dropWhile_subset _ (List.drop_subset _ _ hx)

/-- The path left by the params split draws from the input. -/
theorem splitParams_fst_subset (cs : List Char) : (splitParams cs).1 ⊆ cs := by
  unfold splitParams
  split
  · split
    · split
      · exact List.take_subset _ _
      · exact fun x hx => hx
    · split
      · exact List.take_subset _ _
      · exact fun x hx => hx
  · exact fun x hx => hx

/-- C7 core, part 1: the canonical key never contains a fragment
delimiter. -/
theorem normalize_url_no_hash (url : String) : '#' ∉ (normalize_url url).toList := by
  intro hmem
  unfold normalize_url urlparse at hmem
  simp only [String.toList] at hmem
  simp only [List.mem_append, List.mem_cons] at hmem
  rcases hmem with ((hs | hrest) | hpath) | hq
  · exact splitScheme_no_hash _ hs
  · rcases hrest with hc | hc | hc | hnl
    · cases hc
    · cases hc
    · cases hc
    · exact splitNetloc_no_hash _ hnl
  · have hsub := splitParams_fst_subset _ hpath
    have hsub2 := splitAtChar_fst_subset '?' _ hsub
    exact splitAtChar_fst_no_sep '#' _ hsub2
  · split at hq
    · cases hq
    · rcases List.mem_cons.1 hq with hc | hc
      · cases hc
      · have hsub2 := splitAtChar_snd_subset '?' _ hc
        exact splitAtChar_fst_no_sep '#' _ hsub2

/-- Appending a fragment never changes the scheme split (other than carrying
the suffix in the remainder). -/
theorem splitScheme_append (A F : List Char) :
    splitScheme (A ++ '#' :: F)
      = ((splitScheme A).1, (splitScheme A).2 ++ '#' :: F) := by
  unfold splitScheme
  cases hA : A.findIdx? (· = ':') with
  | some i =>
    have hi : i < A.length := (List.findIdx?_eq_some_iff_findIdx_eq.1 hA).1
    have happ : (A ++ '#' :: F).findIdx? (· = ':') = some i := by
      rw [List.findIdx?_append, hA]
      rfl
    rw [happ]
    dsimp only
    have ht : (A ++ '#' :: F).take i = A.take i :=
      List.take_append_of_le_length (le_of_lt hi)
    have hd : (A ++ '#' :: F).drop (i + 1) = A.drop (i + 1) ++ '#' :: F :=
      List.drop_append_of_le_length (by omega)
    have hh : (A ++ '#' :: F).head? = A.head? := by
      cases A with
      | nil => simp at hi
      | cons a t => rfl
    rw [ht, hd, hh]
    by_cases hC : 0 < i ∧ (A.take i).all isSchemeChar = true ∧
        A.head?.elim false Char.isAlpha = true
    · rw [if_pos hC, if_pos hC]
    · rw [if_neg hC, if_neg hC]
  | none =>
    have happ : (A ++ '#' :: F).findIdx? (· = ':')
        = (('#' :: F).findIdx? (· = ':')).map (· + A.length) := by
      rw [List.findIdx?_append, hA]
      rfl
    cases hF : ('#' :: F).findIdx? (· = ':') with
    | none =>
      rw [happ, hF]
      rfl
    | some j =>
      rw [happ, hF]
      simp only [Option.map_some']
      have hj : 1 ≤ j := by
        have hfi := (List.findIdx?_eq_some_iff_findIdx_eq.1 hF).2
        rw [List.findIdx_cons] at hfi
        have hdc : (decide ('#' = ':')) = false := by decide
        rw [hdc] at hfi
        simp at hfi
        omega
      have hhash : '#' ∈ (A ++ '#' :: F).take (j + A.length) := by
        have hcomm : j + A.length = A.length + j := by omega
        rw [hcomm, List.take_append]
        cases j with
        | zero => omega
        | succ k =>
          refine List.mem_append.2 (Or.inr ?_)
          rw [List.take_succ_cons]
          exact List.mem_cons_self _ _
      have hC : ¬(0 < j + A.length ∧
          ((A ++ '#' :: F).take (j + A.length)).all isSchemeChar = true ∧
          (A ++ '#' :: F).head?.elim false Char.isAlpha = true) := by
        intro hC
        have := List.all_eq_true.1 hC.2.1 '#' hhash
        exact absurd this (by decide)
      rw [if_neg hC]

/-- Appending a fragment never changes the netloc split (other than carrying
the suffix in the remainder). -/
theorem splitNetloc_append (r F : List Char) :
    splitNetloc (r ++ '#' :: F)
      = ((splitNetloc r).1, (splitNetloc r).2 ++ '#' :: F) := by
  unfold splitNetloc
  have hcond : ((r ++ '#' :: F).take 2 = ['/', '/']) ↔ (r.take 2 = ['/', '/']) := by
    cases r with
    | nil => simp
    | cons a t =>
      cases t with
      | nil => simp
      | cons b t2 => simp
  by_cases hc : r.take 2 = ['/', '/']
  · rw [if_pos (hcond.2 hc), if_pos hc]
    have hlen : 2 ≤ r.length := by
      have hl := congrArg List.length hc
      rw [List.length_take] at hl
      simp at hl
      omega
    rw [List.drop_append_of_le_length hlen]
    rw [takeWhile_append_stop _ _ (by decide), dropWhile_append_stop _ _ (by decide)]
  · rw [if_neg (fun h => hc (hcond.1 h)), if_neg hc]

/-- Appending a fragment never changes the pre-fragment remainder. -/
theorem splitAtChar_hash_fst_append (r F : List Char) :
    (splitAtChar '#' (r ++ '#' :: F)).1 = (splitAtChar '#' r).1 := by
  unfold splitAtChar
  dsimp only
  exact takeWhile_append_stop r F (by decide)

/-- C7 core, part 2: appending any fragment to any URL leaves the canonical
key unchanged. -/
theorem normalize_url_append_hash (u f : String) :
    normalize_url (u ++ "#" ++ f) = normalize_url u := by
  have hdata : (u ++ "#" ++ f).toList = u.toList ++ '#' :: f.toList := by
    show ((u ++ "#") ++ f).data = u.data ++ '#' :: f.data
    have happ : ∀ a b : String, (a ++ b).data = a.data ++ b.data := fun a b => rfl
    rw [happ, happ]
    simp
  unfold normalize_url urlparse
  rw [hdata, splitScheme_append]
  dsimp only
  rw [splitNetloc_append]
  dsimp only
  rw [splitAtChar_hash_fst_append]

/-! ## Claim C7 — URL normalization strips the fragment -/

/-- C7: `normalize_url` rebuilds scheme + host + path + query with the
fragment always stripped: appending any fragment to any URL string yields the
identical canonical key, the key never contains a fragment delimiter, and the
unit-test pair of URLs differing only by `#fragment` normalize identically. -/
theorem c7_normalize_url_fragment :
    (∀ u f : String, normalize_url (u ++ "#" ++ f) = normalize_url u) ∧
    (∀ u : String, '#' ∉ (normalize_url u).toList) ∧
    normalize_url "https://govt.westlaw.com/calregs/document/cc?section=1234#fragment"
      = normalize_url "https://govt.westlaw.com/calregs/document/cc?section=1234" :=
  ⟨normalize_url_append_hash, normalize_url_no_hash, by decide⟩

/-! ## Claim C10 — startup never fails on corrupt local state -/

/-- The caught scan equals the clean scan of some prefix of the lines: a
malformed line abandons the rest but keeps everything before it. -/
theorem scanLedger_prefix (parseLine : String → Option (Option String)) :
    ∀ (ls : List String) (acc : List (Option String)),
      ∃ n, scanLedger parseLine ls acc
        = acc ++ (ls.take n).filterMap
            (fun l => if (pyStrip l).isEmpty then none else parseLine l) := by
  intro ls
  induction ls with
  | nil => intro acc; exact ⟨0, by simp [scanLedger]⟩
  | cons l rest ih =>
    intro acc
    by_cases hb : (pyStrip l).isEmpty = true
    · obtain ⟨n, hn⟩ := ih acc
      refine ⟨n + 1, ?_⟩
      rw [List.take_succ_cons, List.filterMap_cons]
      simp only [hb, if_true]
      rw [← hn]
      simp only [scanLedger, hb, if_true]
    · cases hp : parseLine l with
      | some key =>
        obtain ⟨n, hn⟩ := ih (acc ++ [key])
        refine ⟨n + 1, ?_⟩
        rw [List.take_succ_cons, List.filterMap_cons]
        simp only [hb, if_false, hp]
        have hscan : scanLedger parseLine (l :: rest) acc
            = scanLedger parseLine rest (acc ++ [key]) := by
          simp only [scanLedger, hb, if_false, hp]
          simp
        rw [hscan, hn, List.append_assoc]
        rfl
      | none =>
        refine ⟨0, ?_⟩
        simp only [List.take_zero, List.filterMap_nil, List.append_nil]
        simp only [scanLedger, hb, if_false, hp]
        simp

/-- C10: for every state of the checkpoint file and of the extracted-sections
ledger — missing, unreadable, or with malformed JSON — both loaders return
normally: the checkpoint loader swallows every error of its `try` body and
yields the empty set, the ledger loader yields the keys of a prefix of the
ledger lines, and both constructors succeed with those loaded sets. -/
theorem c10_corrupt_state_startup (fs fs2 : FileState)
    (parseDoc : List String → Option (Option (List String)))
    (parseLine : String → Option (Option String)) :
    (URLDiscoverer_init fs parseDoc).discovered_urls = load_checkpoint fs parseDoc ∧
    (∀ e, load_checkpoint_attempt fs parseDoc = .error e →
      load_checkpoint fs parseDoc = []) ∧
    (∀ l, load_checkpoint_attempt fs parseDoc = .ok l →
      load_checkpoint fs parseDoc = l) ∧
    (SectionExtractor_init fs2 parseLine).extracted_urls
      = load_extracted_urls fs2 parseLine ∧
    (∃ n, load_extracted_urls fs2 parseLine
      = (fs2.linesOf.take n).filterMap
          (fun l => if (pyStrip l).isEmpty then none else parseLine l)) := by
  refine ⟨rfl, ?_, ?_, rfl, ?_⟩
  · intro e he
    cases fs with
    | missing => rfl
    | unreadable => rfl
    | lines ls =>
      unfold load_checkpoint_attempt at he
      dsimp only at he
      unfold load_checkpoint
      dsimp only
      cases hp : parseDoc ls with
      | none => rfl
      | some d => rw [hp] at he; cases he
  · intro l hl
    cases fs with
    | missing =>
      unfold load_checkpoint_attempt at hl
      cases hl
      rfl
    | unreadable =>
      unfold load_checkpoint_attempt at hl
      cases hl
    | lines ls =>
      unfold load_checkpoint_attempt at hl
      dsimp only at hl
      unfold load_checkpoint
      dsimp only
      cases hp : parseDoc ls with
      | none => rw [hp] at hl; cases hl
      | some d =>
        rw [hp] at hl
        cases hl
        rfl
  · match fs2 with
    | .missing => exact ⟨0, rfl⟩
    | .unreadable => exact ⟨0, rfl⟩
    | .lines ls =>
      obtain ⟨n, hn⟩ := scanLedger_prefix parseLine ls []
      refine ⟨n, ?_⟩
      unfold load_extracted_urls
      dsimp only
      rw [hn]
      rfl

/-- Witness for C10 on a one-line state file whose line defeats the JSON
parse. -/
theorem c10_corrupt_state_startup_witness :
    load_checkpoint (.lines ["garbage"]) (fun _ => none) = [] ∧
    load_extracted_urls (.lines ["garbage"]) (fun _ => none) = [] := by
  have h := c10_corrupt_state_startup (.lines ["garbage"]) (.lines ["garbage"])
    (fun _ => none) (fun _ => none)
  exact ⟨h.2.1 ⟨"JSONDecodeError", "invalid checkpoint"⟩ rfl, by decide⟩

/-! ## Claim C9 — discovery terminates, fetches once, exits on empty frontier
or cap -/

/-- The breadth-first loop invariantly fetches without repetition and exits
only with an empty frontier or a reached cap. -/
theorem discoverLoop_spec (links : String → List String) (U : Finset String)
    (hU : ∀ u ∈ U, ∀ l ∈ links u, normalize_url l ∈ U)
    (maxP maxS : Option Nat) :
    ∀ (n : Nat) (tv : List {u : String // u ∈ U})
      (visited secs disc : Finset String) (fetched : List String),
      (U \ visited).card ≤ n → fetched.Nodup → (∀ x ∈ fetched, x ∈ visited) →
      ((discoverLoop links U hU maxP maxS tv visited secs disc fetched).fetched.Nodup ∧
        ((discoverLoop links U hU maxP maxS tv visited secs disc fetched).frontier = [] ∨
          capReached maxP
            (discoverLoop links U hU maxP maxS tv visited secs disc fetched).visited.card
            = true ∨
          capReached maxS
            (discoverLoop links U hU maxP maxS tv visited secs disc
              fetched).discovered.card = true)) := by
  intro n
  induction n with
  | zero =>
    intro tv
    induction tv with
    | nil =>
      intro visited secs disc fetched hcard hnd hsub
      rw [discoverLoop]
      exact ⟨hnd, Or.inl rfl⟩
    | cons cur rest ihtv =>
      intro visited secs disc fetched hcard hnd hsub
      rw [discoverLoop]
      by_cases hcap1 : capReached maxP visited.card = true
      · rw [if_pos hcap1]
        exact ⟨hnd, Or.inr (Or.inl hcap1)⟩
      · rw [if_neg hcap1]
        by_cases hcap2 : capReached maxS disc.card = true
        · rw [if_pos hcap2]
          exact ⟨hnd, Or.inr (Or.inr hcap2)⟩
        · rw [if_neg hcap2]
          by_cases hv : cur.val ∈ visited
          · rw [dif_pos hv]
            exact ihtv visited secs disc fetched hcard hnd hsub
          · rw [dif_neg hv]
            have hpos : 0 < (U \ visited).card :=
              Finset.card_pos.2 ⟨cur.val, Finset.mem_sdiff.2 ⟨cur.property, hv⟩⟩
            exact absurd hcard (by omega)
  | succ n ihn =>
    intro tv
    induction tv with
    | nil =>
      intro visited secs disc fetched hcard hnd hsub
      rw [discoverLoop]
      exact ⟨hnd, Or.inl rfl⟩
    | cons cur rest ihtv =>
      intro visited secs disc fetched hcard hnd hsub
      rw [discoverLoop]
      by_cases hcap1 : capReached maxP visited.card = true
      · rw [if_pos hcap1]
        exact ⟨hnd, Or.inr (Or.inl hcap1)⟩
      · rw [if_neg hcap1]
        by_cases hcap2 : capReached maxS disc.card = true
        · rw [if_pos hcap2]
          exact ⟨hnd, Or.inr (Or.inr hcap2)⟩
        · rw [if_neg hcap2]
          by_cases hv : cur.val ∈ visited
          · rw [dif_pos hv]
            exact ihtv visited secs disc fetched hcard hnd hsub
          · rw [dif_neg hv]
            dsimp only
            apply ihn
            · have hlt : (U \ insert cur.val visited).card < (U \ visited).card := by
                apply Finset.card_lt_card
                rw [Finset.ssubset_iff_of_subset (Finset.sdiff_subset_sdiff
                  (Finset.Subset.refl U) (Finset.subset_insert _ _))]
                exact ⟨cur.val, Finset.mem_sdiff.2 ⟨cur.property, hv⟩,
                  fun hm => (Finset.mem_sdiff.1 hm).2 (Finset.mem_insert_self _ _)⟩
              omega
            · have hcur : cur.val ∉ fetched := fun hf => hv (hsub _ hf)
              rw [List.nodup_append]
              refine ⟨hnd, List.nodup_singleton _, ?_⟩
              intro a ha hb
              rw [List.mem_singleton] at hb
              subst hb
              exact hcur ha
            · intro x hx
              rcases List.mem_append.1 hx with hx | hx
              · exact Finset.mem_insert_of_mem (hsub _ hx)
              · rw [List.mem_singleton] at hx
                subst hx
                exact Finset.mem_insert_self _ _

/-- C9: `discover_all_urls` over any finite link graph — cycles included —
fetches no page twice (the visited set is checked before a dequeued URL is
processed) and its loop ends only with an empty frontier or a reached
`max_pages` / `max_section_urls` cap.  Termination itself is carried by the
definition of `discoverLoop`, which recurses on the well-founded measure
(unvisited-universe size, frontier length) with no fuel. -/
theorem c9_discovery_terminates (links : String → List String) (U : Finset String)
    (hU : ∀ u ∈ U, ∀ l ∈ links u, normalize_url l ∈ U)
    (start : String) (hstart : start ∈ U)
    (maxPages maxSections : Option Nat) (discovered0 : Finset String) :
    (discover_all_urls links U hU start hstart maxPages maxSections
      discovered0).fetched.Nodup ∧
    ((discover_all_urls links U hU start hstart maxPages maxSections
        discovered0).frontier = [] ∨
      capReached maxPages (discover_all_urls links U hU start hstart maxPages
        maxSections discovered0).visited.card = true ∨
      capReached maxSections (discover_all_urls links U hU start hstart maxPages
        maxSections discovered0).discovered.card = true) := by
  unfold discover_all_urls
  exact discoverLoop_spec links U hU maxPages maxSections
    ((U \ ∅).card) [⟨start, hstart⟩] ∅ ∅ discovered0 [] (le_refl _)
    List.nodup_nil (by intro x hx; cases hx)

/-- Witness for C9 on a concrete two-page cyclic navigation graph. -/
theorem c9_discovery_terminates_witness :
    (discover_all_urls crawlLinks crawlU (by decide) "http://x/calregs/browse/a"
      (by decide) none none ∅).fetched.Nodup ∧
    ((discover_all_urls crawlLinks crawlU (by decide) "http://x/calregs/browse/a"
        (by decide) none none ∅).frontier = [] ∨
      capReached none (discover_all_urls crawlLinks crawlU (by decide)
        "http://x/calregs/browse/a" (by decide) none none ∅).visited.card = true ∨
      capReached none (discover_all_urls crawlLinks crawlU (by decide)
        "http://x/calregs/browse/a" (by decide) none none ∅).discovered.card
        = true) :=
  c9_discovery_terminates crawlLinks crawlU (by decide) "http://x/calregs/browse/a"
    (by decide) none none ∅

end CCR
